import Mathlib

/-!
Shallow embedding of the cosmic-engine astronomical core
(src/cosmic-engine/src/utils/astronomy.js, utils/config.js and the
useCosmicEngine hook), with theorems checking the specification claims.
JavaScript numbers are modelled as real numbers; Math.floor, Math.round,
the `%` operator and Math.atan2 are modelled explicitly below.
-/

open Real

/-- Model of JavaScript truncation toward zero, as performed by the `%`
operator on numbers: `trunc z` is `⌈z⌉` for negative `z` and `⌊z⌋` otherwise. -/
noncomputable def jsTrunc (z : ℝ) : ℤ :=
  if z < 0 then ⌈z⌉ else ⌊z⌋

/-- Model of the JavaScript remainder operator `x % y` (sign follows the
dividend): `x - y * trunc (x / y)`. -/
noncomputable def jsFmod (x y : ℝ) : ℝ :=
  x - y * (jsTrunc (x / y) : ℝ)

/-- Model of JavaScript `Math.round` (round half toward positive infinity). -/
noncomputable def jsRound (x : ℝ) : ℤ := ⌊x + 1 / 2⌋

/-- Source helper `normalizeDeg`: `((angle % 360) + 360) % 360`. -/
noncomputable def normalizeDeg (angle : ℝ) : ℝ :=
  jsFmod (jsFmod angle 360 + 360) 360

/-- Source constant `DEG2RAD` and helper `toRadians`. -/
noncomputable def toRadians (deg : ℝ) : ℝ := deg * (π / 180)

/-- Source helper `toDegrees`. -/
noncomputable def toDegrees (rad : ℝ) : ℝ := rad * (180 / π)

/-- Model of JavaScript `Math.atan2 y x`: the argument of the complex
number with real part `x` and imaginary part `y`, valued in `(-π, π]`. -/
noncomputable def atan2 (y x : ℝ) : ℝ :=
  Complex.arg (Complex.ofReal x + Complex.ofReal y * Complex.I)

/-- Source function `getJulianDate`, acting on an already-extracted civil
date (year, month 1..12 possibly adjusted, day of month) and a decimal
UTC hour. `Math.floor` is `Int.floor` on reals. -/
noncomputable def getJulianDate (year : ℤ) (month day : ℕ) (timeOfDay : ℝ) : ℝ :=
  let y : ℤ := if month ≤ 2 then year - 1 else year
  let m : ℕ := if month ≤ 2 then month + 12 else month
  let A : ℤ := ⌊(y : ℝ) / 100⌋
  let B : ℤ := 2 - A + ⌊(A : ℝ) / 4⌋
  (⌊(365.25 : ℝ) * ((y : ℝ) + 4716)⌋ : ℝ) +
    (⌊(30.6001 : ℝ) * ((m : ℝ) + 1)⌋ : ℝ) +
    (day : ℝ) + (B : ℝ) - 1524.5 + timeOfDay / 24.0

/-- Configuration constant `CONFIG.SOLAR.TWILIGHT.OFFICIAL` from config.js. -/
noncomputable def officialTwilight : ℝ := -0.833

/-- Latitude clamp used by both daylight queries:
`Math.max(-89.9, Math.min(89.9, lat))`. -/
noncomputable def safeLat (lat : ℝ) : ℝ := max (-89.9) (min 89.9 lat)

/-- Shared sunrise-equation expression computed identically (inline) by
`calculateDaylightDurationPrecise` and `getSunHours`:
`(sin(alt) - sin(lat)*sin(dec)) / (cos(lat)*cos(dec))` with the clamped
latitude. -/
noncomputable def cosOmega (lat declination angleThreshold : ℝ) : ℝ :=
  (Real.sin (toRadians angleThreshold) -
      Real.sin (toRadians (safeLat lat)) * Real.sin (toRadians declination)) /
    (Real.cos (toRadians (safeLat lat)) * Real.cos (toRadians declination))

/-- Source function `calculateDaylightDurationPrecise`: day length in hours
from latitude, solar declination and a twilight altitude threshold. -/
noncomputable def calculateDaylightDurationPrecise
    (lat declination angleThreshold : ℝ) : ℝ :=
  let c := cosOmega lat declination angleThreshold
  if c ≤ -1 then 24.0
  else if c ≥ 1 then 0.0
  else (2 * toDegrees (Real.arccos c)) / 15

/-- Source function `getSunHours`: UTC start and end of the window during
which the sun is above the given altitude, with solar noon idealized at
12:00 UTC. -/
noncomputable def getSunHours (lat declination angleThreshold : ℝ) : ℝ × ℝ :=
  let c := cosOmega lat declination angleThreshold
  if c < -1 then (0, 24)
  else if c > 1 then (12, 12)
  else
    let hourOffset := toDegrees (Real.arccos c) / 15
    (12 - hourOffset, 12 + hourOffset)

/-- C1: julianDate applied to the civil date 2000-01-01 with decimal UTC
hour 12.0 returns exactly 2451545.0, the J2000 epoch anchor, via the
floor-based formula of the source. -/
theorem julianDate_J2000_anchor : getJulianDate 2000 1 1 12 = 2451545.0 := by
  unfold getJulianDate
  norm_num

/-- C2: for every latitude, declination and twilight threshold, the day
length lies between 0 and 24 inclusive, and it is given by the stated
three-way case split on `cos ω`: 24 when `cos ω ≤ -1`, 0 when
`cos ω ≥ 1`, and `2·degrees(acos(cos ω))/15` otherwise. -/
theorem dayLength_bounds_and_cases (lat declination angleThreshold : ℝ) :
    (0 ≤ calculateDaylightDurationPrecise lat declination angleThreshold ∧
      calculateDaylightDurationPrecise lat declination angleThreshold ≤ 24) ∧
    calculateDaylightDurationPrecise lat declination angleThreshold =
      (if cosOmega lat declination angleThreshold ≤ -1 then 24.0
       else if cosOmega lat declination angleThreshold ≥ 1 then 0.0
       else (2 * toDegrees (Real.arccos
          (cosOmega lat declination angleThreshold))) / 15) := by
  refine ⟨?_, rfl⟩
  unfold calculateDaylightDurationPrecise
  set c := cosOmega lat declination angleThreshold with hc
  dsimp only
  split_ifs with h1 h2
  · norm_num
  · norm_num
  · have hπ : (0 : ℝ) < π := Real.pi_pos
    have h0 : 0 ≤ Real.arccos c := Real.arccos_nonneg c
    have hle : Real.arccos c ≤ π := Real.arccos_le_pi c
    unfold toDegrees
    constructor
    · positivity
    · rw [div_le_iff₀ (by norm_num : (0:ℝ) < 15)]
      have : Real.arccos c * (180 / π) ≤ π * (180 / π) := by
        apply mul_le_mul_of_nonneg_right hle
        positivity
      have hπne : π ≠ 0 := ne_of_gt hπ
      nlinarith [this, mul_div_cancel₀ (180 : ℝ) hπne]

/-- Helper: in the open interval `-1 < c < 1` the arccos value is strictly
between `0` and `π`. -/
theorem arccos_mem_open (c : ℝ) (h1 : -1 < c) (h2 : c < 1) :
    0 < Real.arccos c ∧ Real.arccos c < π := by
  refine ⟨Real.arccos_pos.mpr h2, lt_of_le_of_ne (Real.arccos_le_pi c) ?_⟩
  intro heq
  exact absurd (Real.arccos_eq_pi.mp heq) (not_le.mpr h1)

/-- C3: for every latitude, declination and threshold, the two daylight
queries agree on the polar classification: day length is 24 exactly when
the sun-hours window is the perpetual-day window (0, 24), and day length
is 0 exactly when the window is the degenerate perpetual-night window
(12, 12). -/
theorem dayLength_sunHours_polar_agreement (lat declination angleThreshold : ℝ) :
    (calculateDaylightDurationPrecise lat declination angleThreshold = 24 ↔
      getSunHours lat declination angleThreshold = (0, 24)) ∧
    (calculateDaylightDurationPrecise lat declination angleThreshold = 0 ↔
      getSunHours lat declination angleThreshold = (12, 12)) := by
  unfold calculateDaylightDurationPrecise getSunHours
  set c := cosOmega lat declination angleThreshold with hc
  dsimp only
  have hπ : (0 : ℝ) < π := Real.pi_pos
  have hdeg : toDegrees π = 180 := by
    unfold toDegrees; field_simp
  by_cases h1 : c ≤ -1
  · rw [if_pos h1]
    by_cases h1s : c < -1
    · rw [if_pos h1s]
      norm_num [Prod.ext_iff]
    · have hceq : c = -1 := le_antisymm h1 (not_lt.mp h1s)
      rw [if_neg h1s, if_neg (show ¬ c > 1 by rw [hceq]; norm_num)]
      rw [hceq, Real.arccos_neg_one, hdeg]
      norm_num [Prod.ext_iff]
  · rw [if_neg h1]
    push_neg at h1
    by_cases h2 : c ≥ 1
    · rw [if_pos h2, if_neg (show ¬ c < -1 by linarith)]
      by_cases h2s : c > 1
      · rw [if_pos h2s]
        norm_num [Prod.ext_iff]
      · have hceq : c = 1 := le_antisymm (not_lt.mp h2s) h2
        rw [if_neg h2s, hceq, Real.arccos_one,
          show toDegrees 0 = 0 by unfold toDegrees; ring]
        norm_num [Prod.ext_iff]
    · push_neg at h2
      rw [if_neg (not_le.mpr h2), if_neg (show ¬ c < -1 by linarith),
        if_neg (show ¬ c > 1 by linarith)]
      obtain ⟨ha0, haπ⟩ := arccos_mem_open c h1 h2
      set D := toDegrees (Real.arccos c) with hD
      have hD0 : 0 < D := by rw [hD]; unfold toDegrees; positivity
      have hD180 : D < 180 := by
        rw [← hdeg, hD]
        unfold toDegrees
        exact mul_lt_mul_of_pos_right haπ (by positivity)
      simp only [Prod.mk.injEq]
      constructor
      · constructor
        · intro h; exfalso; linarith
        · rintro ⟨hf, -⟩; exfalso; linarith
      · constructor
        · intro h; exfalso; linarith
        · rintro ⟨hf, -⟩; exfalso; linarith

/-- Helper: the sunrise-equation expression at the equator with zero
declination reduces to the sine of the threshold in radians. -/
theorem cosOmega_equator (angleThreshold : ℝ) :
    cosOmega 0 0 angleThreshold = Real.sin (toRadians angleThreshold) := by
  unfold cosOmega safeLat
  rw [min_eq_right (by norm_num : (0:ℝ) ≤ 89.9),
    max_eq_right (by norm_num : (-89.9:ℝ) ≤ 0)]
  rw [show toRadians 0 = 0 by unfold toRadians; ring]
  simp

/-- C8: dayLength at the equator with zero declination and the official
sunrise threshold −0.833° is exactly `2·90.833/15 ≈ 12.111` hours, hence
approximately 12.0 hours (within 0.12). -/
theorem dayLength_equator_approx_12 :
    calculateDaylightDurationPrecise 0 0 officialTwilight = 2 * 90.833 / 15 ∧
    |calculateDaylightDurationPrecise 0 0 officialTwilight - 12| < 0.12 := by
  have hπ : (0 : ℝ) < π := Real.pi_pos
  have hπ4 : π < 4 := Real.pi_lt_four
  set θ : ℝ := 0.833 * (π / 180) with hθ
  have hθ0 : 0 < θ := by rw [hθ]; positivity
  have hθsmall : θ < 1 := by rw [hθ]; nlinarith
  have hθhalf : θ < π / 2 := by rw [hθ]; nlinarith
  have hc : cosOmega 0 0 officialTwilight = -Real.sin θ := by
    rw [cosOmega_equator]
    unfold officialTwilight toRadians
    rw [show (-0.833 : ℝ) * (π / 180) = -θ by rw [hθ]; ring, Real.sin_neg]
  have hsin0 : 0 < Real.sin θ :=
    Real.sin_pos_of_pos_of_lt_pi hθ0 (by linarith)
  have hsin1 : Real.sin θ < 1 := lt_trans (Real.sin_lt hθ0) hθsmall
  have key : calculateDaylightDurationPrecise 0 0 officialTwilight =
      2 * 90.833 / 15 := by
    unfold calculateDaylightDurationPrecise
    rw [hc]
    rw [if_neg (by push_neg; linarith), if_neg (by push_neg; linarith)]
    have hcosform : -Real.sin θ = Real.cos (π / 2 + θ) := by
      rw [Real.cos_add, Real.cos_pi_div_two, Real.sin_pi_div_two]
      ring
    rw [hcosform, Real.arccos_cos (by linarith) (by linarith)]
    unfold toDegrees
    have hπne : π ≠ 0 := ne_of_gt hπ
    rw [hθ]
    field_simp
    ring
  refine ⟨key, ?_⟩
  rw [key, abs_lt]
  constructor <;> norm_num

/-- Helper: for a positive modulus the JavaScript remainder lies strictly
between `-y` and `y`. -/
theorem jsFmod_mem (x y : ℝ) (hy : 0 < y) : -y < jsFmod x y ∧ jsFmod x y < y := by
  unfold jsFmod jsTrunc
  set z := x / y with hz
  have hx : x = y * z := by rw [hz]; field_simp
  by_cases hneg : z < 0
  · rw [if_pos hneg]
    have hc1 : z ≤ (⌈z⌉ : ℝ) := Int.le_ceil z
    have hc2 : (⌈z⌉ : ℝ) < z + 1 := Int.ceil_lt_add_one z
    constructor <;> nlinarith
  · rw [if_neg hneg]
    have hf1 : (⌊z⌋ : ℝ) ≤ z := Int.floor_le z
    have hf2 : z < (⌊z⌋ : ℝ) + 1 := Int.lt_floor_add_one z
    constructor <;> nlinarith

/-- Helper: for a nonnegative dividend and positive modulus the JavaScript
remainder is `y` times the fractional part of `x / y`. -/
theorem jsFmod_nonneg_eq (x y : ℝ) (hy : 0 < y) (hx : 0 ≤ x) :
    jsFmod x y = y * Int.fract (x / y) := by
  unfold jsFmod jsTrunc
  rw [if_neg (not_lt.mpr (div_nonneg hx (le_of_lt hy)))]
  rw [Int.fract]
  have : x = y * (x / y) := by field_simp
  nlinarith [this]

/-- Source local `normalized` of `formatTime`: `((x % 24) + 24) % 24`. -/
noncomputable def ftNormalized (x : ℝ) : ℝ := jsFmod (jsFmod x 24 + 24) 24

/-- Source local `hours` of `formatTime`. -/
noncomputable def ftHours (x : ℝ) : ℤ := ⌊ftNormalized x⌋

/-- Source local `minutes` of `formatTime`. -/
noncomputable def ftMinutes (x : ℝ) : ℤ :=
  ⌊(ftNormalized x - (ftHours x : ℝ)) * 60⌋

/-- Source local `seconds` of `formatTime` before the carry chain. -/
noncomputable def ftSeconds (x : ℝ) : ℤ :=
  jsRound (((ftNormalized x - (ftHours x : ℝ)) * 60 - (ftMinutes x : ℝ)) * 60)

/-- Hour, minute and second emitted by `formatTime` after its sequential
rounding carry chain (seconds = 60 rolls into minutes, minutes = 60 rolls
into hours, hours = 24 wraps to 0). -/
noncomputable def formatTimeHMS (x : ℝ) : ℤ × ℤ × ℤ :=
  let s1 := if ftSeconds x = 60 then 0 else ftSeconds x
  let m1 := if ftSeconds x = 60 then ftMinutes x + 1 else ftMinutes x
  let m2 := if m1 = 60 then 0 else m1
  let h2 := if m1 = 60 then ftHours x + 1 else ftHours x
  let h3 := if h2 = 24 then 0 else h2
  (h3, m2, s1)

/-- Model of `v.toString().padStart(2, "0")` for the integer components. -/
def pad2 (n : ℤ) : String :=
  if (toString n).length < 2 then "0" ++ toString n else toString n

/-- Source function `formatTime`: decimal hours to an "HH:MM:SS" string
(the NaN/null placeholder branch is outside the real-number model). -/
noncomputable def formatTime (x : ℝ) : String :=
  pad2 (formatTimeHMS x).1 ++ ":" ++ pad2 (formatTimeHMS x).2.1 ++ ":" ++
    pad2 (formatTimeHMS x).2.2

/-- Helper: the normalized decimal hour lies in `[0, 24)`. -/
theorem ftNormalized_mem (x : ℝ) : 0 ≤ ftNormalized x ∧ ftNormalized x < 24 := by
  unfold ftNormalized
  obtain ⟨hlo, hhi⟩ := jsFmod_mem x 24 (by norm_num)
  have hx : (0 : ℝ) ≤ jsFmod x 24 + 24 := by linarith
  rw [jsFmod_nonneg_eq _ 24 (by norm_num) hx]
  have h0 := Int.fract_nonneg ((jsFmod x 24 + 24) / 24)
  have h1 := Int.fract_lt_one ((jsFmod x 24 + 24) / 24)
  constructor <;> nlinarith

/-- Helper: component bounds after the carry chain: hours in 0..23,
minutes and seconds in 0..59. -/
theorem formatTimeHMS_bounds (x : ℝ) :
    (0 ≤ (formatTimeHMS x).1 ∧ (formatTimeHMS x).1 ≤ 23) ∧
    (0 ≤ (formatTimeHMS x).2.1 ∧ (formatTimeHMS x).2.1 ≤ 59) ∧
    (0 ≤ (formatTimeHMS x).2.2 ∧ (formatTimeHMS x).2.2 ≤ 59) := by
  obtain ⟨hN0, hN24⟩ := ftNormalized_mem x
  have hh0 : 0 ≤ ftHours x := Int.floor_nonneg.mpr hN0
  have hh23 : ftHours x ≤ 23 := by
    have : ftHours x < 24 := Int.floor_lt.mpr (by exact_mod_cast hN24)
    omega
  have hfr0 : 0 ≤ ftNormalized x - (ftHours x : ℝ) :=
    sub_nonneg.mpr (Int.floor_le (ftNormalized x))
  have hfr1 : ftNormalized x - (ftHours x : ℝ) < 1 := by
    have := Int.lt_floor_add_one (ftNormalized x)
    unfold ftHours
    linarith
  have hm0 : 0 ≤ ftMinutes x := Int.floor_nonneg.mpr (by nlinarith)
  have hm59 : ftMinutes x ≤ 59 := by
    have : ftMinutes x < 60 := Int.floor_lt.mpr (by push_cast; nlinarith)
    omega
  have hmf0 : 0 ≤ (ftNormalized x - (ftHours x : ℝ)) * 60 - (ftMinutes x : ℝ) :=
    sub_nonneg.mpr (Int.floor_le _)
  have hmf1 : (ftNormalized x - (ftHours x : ℝ)) * 60 - (ftMinutes x : ℝ) < 1 := by
    have := Int.lt_floor_add_one ((ftNormalized x - (ftHours x : ℝ)) * 60)
    unfold ftMinutes
    linarith
  have hs0 : 0 ≤ ftSeconds x := by
    unfold ftSeconds jsRound
    apply Int.floor_nonneg.mpr
    nlinarith
  have hs60 : ftSeconds x ≤ 60 := by
    unfold ftSeconds jsRound
    have : (⌊((ftNormalized x - (ftHours x : ℝ)) * 60 - (ftMinutes x : ℝ)) * 60
        + 1 / 2⌋ : ℤ) < 61 := Int.floor_lt.mpr (by push_cast; nlinarith)
    omega
  unfold formatTimeHMS
  dsimp only
  split_ifs <;> omega

/-- Helper: for hours in 0..23 the two-character zero-padded rendering is
two characters long and is never the digits of 24. -/
theorem pad2_hour_ne (h : ℤ) (h0 : 0 ≤ h) (h23 : h ≤ 23) :
    (pad2 h).data.length = 2 ∧ (pad2 h).data ≠ ['2', '4'] := by
  interval_cases h <;> exact ⟨rfl, by decide⟩

/-- C9: formatTime never emits the string "24:00:00" for any real decimal
hour; an input like 23.99999 whose seconds round up through a full carry
wraps the hour and yields "00:00:00". -/
theorem formatTime_never_2400 :
    (∀ x : ℝ, formatTime x ≠ "24:00:00") ∧
    formatTime (23.99999 : ℝ) = "00:00:00" := by
  constructor
  · intro x heq
    obtain ⟨⟨hh0, hh23⟩, -, -⟩ := formatTimeHMS_bounds x
    obtain ⟨hlen, hne⟩ := pad2_hour_ne (formatTimeHMS x).1 hh0 hh23
    unfold formatTime at heq
    have hdata := congrArg String.data heq
    simp only [String.data_append, List.append_assoc] at hdata
    have hdata2 := hdata.trans
      (show ['2', '4', ':', '0', '0', ':', '0', '0'] =
        ['2', '4'] ++ [':', '0', '0', ':', '0', '0'] by rfl)
    have := (List.append_inj hdata2 (by rw [hlen]; rfl)).1
    exact hne this
  · have h1 : jsFmod (23.99999 : ℝ) 24 = 23.99999 := by
      unfold jsFmod jsTrunc
      rw [if_neg (by norm_num : ¬ ((23.99999 : ℝ) / 24 < 0))]
      norm_num
    have h2 : ftNormalized (23.99999 : ℝ) = 23.99999 := by
      unfold ftNormalized
      rw [h1]
      unfold jsFmod jsTrunc
      rw [if_neg (by norm_num : ¬ ((23.99999 + 24 : ℝ) / 24 < 0))]
      norm_num
    have hH : ftHours (23.99999 : ℝ) = 23 := by
      unfold ftHours
      rw [h2]
      norm_num
    have hM : ftMinutes (23.99999 : ℝ) = 59 := by
      unfold ftMinutes
      rw [h2, hH]
      norm_num
    have hS : ftSeconds (23.99999 : ℝ) = 60 := by
      unfold ftSeconds jsRound
      rw [h2, hH, hM]
      norm_num
    unfold formatTime formatTimeHMS
    rw [hS, hM, hH]
    norm_num
    decide

/-- Configuration constant `CONFIG.ORBIT.daysInYear`. -/
noncomputable def daysInYear : ℝ := 365.25

/-- Configuration constant `CONFIG.ORBIT.earthOrbitRadius`. -/
noncomputable def earthOrbitRadius : ℝ := 200

/-- Configuration constant `CONFIG.ORBIT.moonOrbitRadius`. -/
noncomputable def moonOrbitRadius : ℝ := 60

/-- Engine local `earthTheta`: `(n / daysInYear) * 2π`. -/
noncomputable def earthTheta (n : ℝ) : ℝ := n / daysInYear * (2 * π)

/-- Engine local `earthPos`: Earth on its circular orbit. -/
noncomputable def earthPos (n : ℝ) : ℝ × ℝ :=
  (earthOrbitRadius * Real.cos (earthTheta n),
   earthOrbitRadius * Real.sin (earthTheta n))

/-- Engine local `meanElongationDeg`: `297.85 + 12.19075·n`. -/
noncomputable def meanElongationDeg (n : ℝ) : ℝ := 297.85 + 12.19075 * n

/-- Engine local `angleToSun`: `earthTheta + π`. -/
noncomputable def angleToSun (n : ℝ) : ℝ := earthTheta n + π

/-- Engine local `moonTheta`: `angleToSun + radians(meanElongationDeg)`. -/
noncomputable def moonTheta (n : ℝ) : ℝ :=
  angleToSun n + toRadians (meanElongationDeg n)

/-- Engine local `moonPos`: Moon position offset from the Earth by a
fixed-radius vector at angle `moonTheta`. -/
noncomputable def moonPos (n : ℝ) : ℝ × ℝ :=
  ((earthPos n).1 + moonOrbitRadius * Real.cos (moonTheta n),
   (earthPos n).2 + moonOrbitRadius * Real.sin (moonTheta n))

/-- Engine local `angleToMoon`: `atan2(moon.y − earth.y, moon.x − earth.x)`. -/
noncomputable def angleToMoon (n : ℝ) : ℝ :=
  atan2 ((moonPos n).2 - (earthPos n).2) ((moonPos n).1 - (earthPos n).1)

/-- Engine local `phaseRad`: `(angleToMoon − angleToSun) % 2π`, shifted by
`2π` if negative. -/
noncomputable def phaseRad (n : ℝ) : ℝ :=
  let p := jsFmod (angleToMoon n - angleToSun n) (2 * π)
  if p < 0 then p + 2 * π else p

/-- Engine local `phase0to1`: the lunar phase fraction. -/
noncomputable def phase0to1 (n : ℝ) : ℝ := phaseRad n / (2 * π)

/-- Engine local `alignmentFactor`: `cos(2·(angleToMoon − angleToSun))`. -/
noncomputable def alignmentFactor (n : ℝ) : ℝ :=
  Real.cos (2 * (angleToMoon n - angleToSun n))

/-- Engine helper `getPhaseName` from the useCosmicEngine hook. -/
noncomputable def getPhaseName (p : ℝ) : String :=
  if p < 0.03 ∨ p > 0.97 then "New Moon"
  else if p < 0.22 then "Waxing Crescent"
  else if p < 0.28 then "First Quarter"
  else if p < 0.47 then "Waxing Gibbous"
  else if p < 0.53 then "Full Moon"
  else if p < 0.72 then "Waning Gibbous"
  else if p < 0.78 then "Last Quarter"
  else "Waning Crescent"

/-- Visual helper `getPhaseLabel` from PhaseVisual.jsx (its boundaries
differ from the engine bucketing). -/
noncomputable def getPhaseLabel (phase : ℝ) : String :=
  if phase ≤ 0.02 ∨ phase ≥ 0.98 then "New Moon"
  else if phase < 0.24 then "Waxing Crescent"
  else if phase < 0.26 then "First Quarter"
  else if phase < 0.48 then "Waxing Gibbous"
  else if phase ≤ 0.52 then "Full Moon"
  else if phase < 0.74 then "Waning Gibbous"
  else if phase < 0.76 then "Last Quarter"
  else "Waning Crescent"

/-- Tide classifier used in the engine record: the ternary on the
alignment factor. -/
noncomputable def tideClass (alignment : ℝ) : String :=
  if alignment > 0.8 then "Spring Tide"
  else if alignment < -0.8 then "Neap Tide"
  else "Transitional"

/-- Engine field `tides.type`. -/
noncomputable def tidesType (n : ℝ) : String := tideClass (alignmentFactor n)

/-- Helper: atan2 applied to a point on a circle of positive radius at
angle θ recovers θ up to an integer multiple of 2π. -/
theorem atan2_circle (r θ : ℝ) (hr : 0 < r) :
    ∃ k : ℤ, atan2 (r * Real.sin θ) (r * Real.cos θ) = θ + 2 * π * k := by
  refine ⟨⌊(π - θ) / (2 * π)⌋, ?_⟩
  unfold atan2
  have hform : (Complex.ofReal (r * Real.cos θ) +
      Complex.ofReal (r * Real.sin θ) * Complex.I) =
      (r : ℂ) * (Complex.cos θ + Complex.sin θ * Complex.I) := by
    rw [← Complex.ofReal_cos, ← Complex.ofReal_sin]
    push_cast
    ring
  rw [hform]
  have := Complex.arg_mul_cos_add_sin_mul_I_sub hr θ
  linarith [this]

/-- Helper: the difference between the Moon and Earth positions is the
fixed-radius vector at angle `moonTheta`. -/
theorem moon_sub_earth (n : ℝ) :
    (moonPos n).1 - (earthPos n).1 = moonOrbitRadius * Real.cos (moonTheta n) ∧
    (moonPos n).2 - (earthPos n).2 = moonOrbitRadius * Real.sin (moonTheta n) := by
  unfold moonPos
  constructor <;> ring

/-- Helper: `angleToMoon` equals `moonTheta` up to a multiple of 2π. -/
theorem angleToMoon_eq_mod (n : ℝ) :
    ∃ k : ℤ, angleToMoon n = moonTheta n + 2 * π * k := by
  obtain ⟨h1, h2⟩ := moon_sub_earth n
  unfold angleToMoon
  rw [h1, h2]
  exact atan2_circle moonOrbitRadius (moonTheta n)
    (by unfold moonOrbitRadius; norm_num)

/-- Helper: the conditional normalization of a JavaScript remainder into
`[0, y)` computes `y` times the fractional part of `x / y`. -/
theorem jsFmod_norm (x y : ℝ) (hy : 0 < y) :
    (if jsFmod x y < 0 then jsFmod x y + y else jsFmod x y) =
      y * Int.fract (x / y) := by
  unfold jsFmod jsTrunc
  set z := x / y with hz
  have hx : x = y * z := by rw [hz]; field_simp
  have hfr : Int.fract z = z - ⌊z⌋ := rfl
  have hfr0 : 0 ≤ Int.fract z := Int.fract_nonneg z
  have hfr1 : Int.fract z < 1 := Int.fract_lt_one z
  by_cases hneg : z < 0
  · rw [if_pos hneg]
    by_cases hint : (⌈z⌉ : ℝ) = (⌊z⌋ : ℝ)
    · have hzint : z = (⌊z⌋ : ℝ) := by
        have h1 : (⌊z⌋ : ℝ) ≤ z := Int.floor_le z
        have h2 : z ≤ (⌈z⌉ : ℝ) := Int.le_ceil z
        rw [hint] at h2
        linarith
      rw [if_neg (by rw [hint]; nlinarith)]
      rw [hint]
      nlinarith
    · have hceil : (⌈z⌉ : ℝ) = (⌊z⌋ : ℝ) + 1 := by
        have h1 : ⌈z⌉ ≤ ⌊z⌋ + 1 := Int.ceil_le_floor_add_one z
        have h2 : ⌊z⌋ ≤ ⌈z⌉ := Int.floor_le_ceil z
        have h3 : ⌊z⌋ ≠ ⌈z⌉ := fun hc => hint (by rw [hc])
        have : ⌈z⌉ = ⌊z⌋ + 1 := by omega
        exact_mod_cast congrArg (fun t : ℤ => (t : ℝ)) this
      rw [if_pos (by rw [hceil]; nlinarith)]
      rw [hceil]
      nlinarith
  · rw [if_neg hneg]
    rw [if_neg (by nlinarith)]
    nlinarith

/-- Helper: the phase fraction is exactly the fractional part of the mean
elongation divided by 360. -/
theorem phase0to1_eq_fract (n : ℝ) :
    phase0to1 n = Int.fract (meanElongationDeg n / 360) := by
  obtain ⟨k, hk⟩ := angleToMoon_eq_mod n
  have h2π : (0 : ℝ) < 2 * π := Real.two_pi_pos
  have hπne : π ≠ 0 := ne_of_gt Real.pi_pos
  unfold phase0to1 phaseRad
  dsimp only
  rw [jsFmod_norm _ _ h2π]
  have harg : (angleToMoon n - angleToSun n) / (2 * π) =
      meanElongationDeg n / 360 + (k : ℝ) := by
    rw [hk]
    unfold moonTheta toRadians
    field_simp
    ring
  rw [harg, Int.fract_add_int]
  field_simp

/-- C4: for any two days-since-epoch values, the phase fraction lies in
[0, 1); the linear lift (the mean elongation) is strictly increasing, and
whenever no wrap occurs between the two inputs (equal floors of the lift
over 360) the phase fraction increases by exactly the lift increment over
360 — continuity and monotonicity modulo 1 with jumps only at the wrap. -/
theorem phaseFraction_range_and_monotone (n1 n2 : ℝ) (h : n1 < n2) :
    (0 ≤ phase0to1 n1 ∧ phase0to1 n1 < 1) ∧
    meanElongationDeg n1 < meanElongationDeg n2 ∧
    (⌊meanElongationDeg n1 / 360⌋ = ⌊meanElongationDeg n2 / 360⌋ →
      phase0to1 n2 - phase0to1 n1 =
        (meanElongationDeg n2 - meanElongationDeg n1) / 360) := by
  refine ⟨⟨?_, ?_⟩, ?_, ?_⟩
  · rw [phase0to1_eq_fract]; exact Int.fract_nonneg _
  · rw [phase0to1_eq_fract]; exact Int.fract_lt_one _
  · unfold meanElongationDeg; nlinarith
  · intro hfl
    rw [phase0to1_eq_fract, phase0to1_eq_fract]
    simp only [Int.fract]
    rw [hfl]
    ring

/-- Witness for C4 at the concrete pair (0, 1): both hypotheses hold and
the increment law yields the exact step 12.19075/360. -/
theorem phaseFraction_witness :
    (0 : ℝ) < 1 ∧
    phase0to1 1 - phase0to1 0 =
      (meanElongationDeg 1 - meanElongationDeg 0) / 360 :=
  ⟨by norm_num,
    (phaseFraction_range_and_monotone 0 1 (by norm_num)).2.2
      (by unfold meanElongationDeg; norm_num)⟩

/-- Helper: full characterization of the tide classifier ternary. -/
theorem tideClass_spec (a : ℝ) :
    (tideClass a = "Spring Tide" ↔ 0.8 < a) ∧
    (tideClass a = "Neap Tide" ↔ a < -0.8) ∧
    (tideClass a = "Transitional" ↔ (-0.8 ≤ a ∧ a ≤ 0.8)) := by
  unfold tideClass
  by_cases h1 : a > 0.8
  · rw [if_pos h1]
    refine ⟨⟨fun _ => h1, fun _ => rfl⟩, ?_, ?_⟩
    · constructor
      · intro hh; exact absurd hh (by decide)
      · intro hh; exfalso; linarith
    · constructor
      · intro hh; exact absurd hh (by decide)
      · intro hh; exfalso; linarith [hh.2]
  · rw [if_neg h1]
    push_neg at h1
    by_cases h2 : a < -0.8
    · rw [if_pos h2]
      refine ⟨?_, ⟨fun _ => h2, fun _ => rfl⟩, ?_⟩
      · constructor
        · intro hh; exact absurd hh (by decide)
        · intro hh; exfalso; linarith
      · constructor
        · intro hh; exact absurd hh (by decide)
        · intro hh; exfalso; linarith [hh.1]
    · rw [if_neg h2]
      push_neg at h2
      refine ⟨?_, ?_, ⟨fun _ => ⟨h2, h1⟩, fun _ => rfl⟩⟩
      · constructor
        · intro hh; exact absurd hh (by decide)
        · intro hh; exfalso; linarith
      · constructor
        · intro hh; exact absurd hh (by decide)
        · intro hh; exfalso; linarith

/-- C6: for every days-since-epoch value, the tide classification of the
orbital state is "Spring Tide" exactly when the alignment factor exceeds
0.8, "Neap Tide" exactly when it is below -0.8, and "Transitional"
otherwise; the classifier sends alignment 1 (syzygy) to Spring and
alignment 0 (quadrature) to Transitional. -/
theorem tideClassification_spec (n : ℝ) :
    (tidesType n = "Spring Tide" ↔ 0.8 < alignmentFactor n) ∧
    (tidesType n = "Neap Tide" ↔ alignmentFactor n < -0.8) ∧
    (tidesType n = "Transitional" ↔
      (-0.8 ≤ alignmentFactor n ∧ alignmentFactor n ≤ 0.8)) ∧
    tideClass 1 = "Spring Tide" ∧ tideClass 0 = "Transitional" :=
  ⟨(tideClass_spec (alignmentFactor n)).1,
   (tideClass_spec (alignmentFactor n)).2.1,
   (tideClass_spec (alignmentFactor n)).2.2,
   (tideClass_spec 1).1.mpr (by norm_num),
   (tideClass_spec 0).2.2.mpr (by norm_num)⟩

/-- C7 counterexample: 0.53 is a phase fraction in [0,1) satisfying the
claimed Full Moon condition 0.47 ≤ p ≤ 0.53, yet the engine bucketing
returns "Waning Gibbous", not "Full Moon", because its Full Moon branch
is the half-open interval p < 0.53. -/
theorem phaseName_claim_fails_at_053 :
    ((0 : ℝ) ≤ 0.53 ∧ (0.53 : ℝ) < 1 ∧
      (0.47 : ℝ) ≤ 0.53 ∧ (0.53 : ℝ) ≤ 0.53) ∧
    getPhaseName 0.53 = "Waning Gibbous" ∧
    getPhaseName 0.53 ≠ "Full Moon" := by
  refine ⟨by norm_num, ?_, ?_⟩
  · unfold getPhaseName
    rw [if_neg (by push_neg; constructor <;> norm_num),
      if_neg (by norm_num), if_neg (by norm_num), if_neg (by norm_num),
      if_neg (by norm_num), if_pos (by norm_num)]
  · unfold getPhaseName
    rw [if_neg (by push_neg; constructor <;> norm_num),
      if_neg (by norm_num), if_neg (by norm_num), if_neg (by norm_num),
      if_neg (by norm_num), if_pos (by norm_num)]
    decide

/-- C7 amended: for every phase fraction p in [0,1) the engine bucketing
returns one of the eight named categories, with New Moon exactly when
p < 0.03 or p > 0.97 and Full Moon exactly when 0.47 ≤ p < 0.53 (the
upper boundary is exclusive, not inclusive as originally claimed). -/
theorem phaseName_buckets (p : ℝ) (_h0 : 0 ≤ p) (h1 : p < 1) :
    getPhaseName p ∈ ["New Moon", "Waxing Crescent", "First Quarter",
      "Waxing Gibbous", "Full Moon", "Waning Gibbous", "Last Quarter",
      "Waning Crescent"] ∧
    (getPhaseName p = "New Moon" ↔ (p < 0.03 ∨ p > 0.97)) ∧
    (getPhaseName p = "Full Moon" ↔ (0.47 ≤ p ∧ p < 0.53)) := by
  unfold getPhaseName
  split_ifs with hA hB hC hD hE hF hG
  · refine ⟨by decide, ⟨fun _ => hA, fun _ => rfl⟩, ?_⟩
    constructor
    · intro hh; exact absurd hh (by decide)
    · intro hh
      exfalso
      rcases hA with hA | hA
      · linarith [hh.1]
      · linarith [hh.2]
  · refine ⟨by decide, ?_, ?_⟩
    · constructor
      · intro hh; exact absurd hh (by decide)
      · intro hh; exact absurd hh hA
    · constructor
      · intro hh; exact absurd hh (by decide)
      · intro hh; exfalso; linarith [hh.1]
  · refine ⟨by decide, ?_, ?_⟩
    · constructor
      · intro hh; exact absurd hh (by decide)
      · intro hh; exact absurd hh hA
    · constructor
      · intro hh; exact absurd hh (by decide)
      · intro hh; exfalso; linarith [hh.1]
  · refine ⟨by decide, ?_, ?_⟩
    · constructor
      · intro hh; exact absurd hh (by decide)
      · intro hh; exact absurd hh hA
    · constructor
      · intro hh; exact absurd hh (by decide)
      · intro hh; exfalso; linarith [hh.1]
  · refine ⟨by decide, ?_, ⟨fun _ => ⟨not_lt.mp hD, hE⟩, fun _ => rfl⟩⟩
    constructor
    · intro hh; exact absurd hh (by decide)
    · intro hh; exact absurd hh hA
  · refine ⟨by decide, ?_, ?_⟩
    · constructor
      · intro hh; exact absurd hh (by decide)
      · intro hh; exact absurd hh hA
    · constructor
      · intro hh; exact absurd hh (by decide)
      · intro hh; exact absurd hh.2 hE
  · refine ⟨by decide, ?_, ?_⟩
    · constructor
      · intro hh; exact absurd hh (by decide)
      · intro hh; exact absurd hh hA
    · constructor
      · intro hh; exact absurd hh (by decide)
      · intro hh; exact absurd hh.2 hE
  · refine ⟨by decide, ?_, ?_⟩
    · constructor
      · intro hh; exact absurd hh (by decide)
      · intro hh; exact absurd hh hA
    · constructor
      · intro hh; exact absurd hh (by decide)
      · intro hh; exact absurd hh.2 hE

/-- Witness for the amended C7 at the concrete phase 0.5: both
hypotheses hold and the bucketing classifies 0.5 as Full Moon. -/
theorem phaseName_buckets_witness :
    (0 : ℝ) ≤ 0.5 ∧ (0.5 : ℝ) < 1 ∧ getPhaseName 0.5 = "Full Moon" :=
  ⟨by norm_num, by norm_num,
    ((phaseName_buckets 0.5 (by norm_num) (by norm_num)).2.2).mpr
      (by constructor <;> norm_num)⟩

/-- Return record of `calculateSolarPosition`. -/
structure SolarPos where
  declination : ℝ
  equationOfTime : ℝ
  n : ℝ

/-- Source function `calculateSolarPosition`: low-precision solar
coordinates from a Julian Date. -/
noncomputable def calculateSolarPosition (julianDate : ℝ) : SolarPos :=
  let n := julianDate - 2451545.0
  let L := normalizeDeg (280.460 + 0.9856474 * n)
  let g := normalizeDeg (357.528 + 0.9856003 * n)
  let gRad := toRadians g
  let lambda := L + 1.915 * Real.sin gRad + 0.020 * Real.sin (2 * gRad)
  let lambdaRad := toRadians lambda
  let epsilon := 23.439 - 0.0000004 * n
  let epsRad := toRadians epsilon
  let alphaRad := atan2 (Real.cos epsRad * Real.sin lambdaRad)
    (Real.cos lambdaRad)
  let alpha := normalizeDeg (toDegrees alphaRad)
  let declination := toDegrees (Real.arcsin (Real.sin epsRad * Real.sin lambdaRad))
  let diff0 := L - alpha
  let diff1 := if diff0 > 180 then diff0 - 360 else diff0
  let diff2 := if diff1 < -180 then diff1 + 360 else diff1
  ⟨declination, 4 * diff2, n⟩

/-- Subset of the engine `solarData` record relevant to the daylight
window invariants. -/
structure SolarData where
  dayLength : ℝ
  sunrise : ℝ
  sunset : ℝ
  solarNoon : ℝ
  declination : ℝ
  equationOfTime : ℝ

/-- The `solarData` computation of the useCosmicEngine hook: solar noon
from longitude and (optionally suppressed) equation of time, day length
at the official threshold, and the sunrise/sunset window centered on
solar noon. -/
noncomputable def engineSolarData (year : ℤ) (month day : ℕ)
    (timeOfDay lat lon : ℝ) (useAnalemma : Bool) : SolarData :=
  let JD := getJulianDate year month day timeOfDay
  let sp := calculateSolarPosition JD
  let eotCorrection := if useAnalemma then sp.equationOfTime else 0
  let solarNoon := 12 - lon / 15 - eotCorrection / 60
  let dayLen := calculateDaylightDurationPrecise lat sp.declination officialTwilight
  { dayLength := dayLen
    sunrise := solarNoon - dayLen / 2
    sunset := solarNoon + dayLen / 2
    solarNoon := solarNoon
    declination := sp.declination
    equationOfTime := eotCorrection }

/-- C10: for every engine input, the solar output window satisfies
sunset − sunrise = dayLength and sunrise + sunset = 2·solarNoon, so
sunrise and sunset are symmetric about solar noon; in particular when the
day length is 0 both sunrise and sunset coincide with solar noon. -/
theorem solar_window_symmetry (year : ℤ) (month day : ℕ)
    (timeOfDay lat lon : ℝ) (useAnalemma : Bool) :
    (engineSolarData year month day timeOfDay lat lon useAnalemma).sunset -
        (engineSolarData year month day timeOfDay lat lon useAnalemma).sunrise =
      (engineSolarData year month day timeOfDay lat lon useAnalemma).dayLength ∧
    (engineSolarData year month day timeOfDay lat lon useAnalemma).sunrise +
        (engineSolarData year month day timeOfDay lat lon useAnalemma).sunset =
      2 * (engineSolarData year month day timeOfDay lat lon useAnalemma).solarNoon ∧
    ((engineSolarData year month day timeOfDay lat lon useAnalemma).dayLength = 0 →
      (engineSolarData year month day timeOfDay lat lon useAnalemma).sunrise =
        (engineSolarData year month day timeOfDay lat lon useAnalemma).solarNoon ∧
      (engineSolarData year month day timeOfDay lat lon useAnalemma).sunset =
        (engineSolarData year month day timeOfDay lat lon useAnalemma).solarNoon) := by
  have hr : (engineSolarData year month day timeOfDay lat lon useAnalemma).sunrise =
      (engineSolarData year month day timeOfDay lat lon useAnalemma).solarNoon -
        (engineSolarData year month day timeOfDay lat lon useAnalemma).dayLength / 2 := rfl
  have hs : (engineSolarData year month day timeOfDay lat lon useAnalemma).sunset =
      (engineSolarData year month day timeOfDay lat lon useAnalemma).solarNoon +
        (engineSolarData year month day timeOfDay lat lon useAnalemma).dayLength / 2 := rfl
  refine ⟨by rw [hr, hs]; ring, by rw [hr, hs]; ring, fun h => ?_⟩
  constructor
  · rw [hr, h]; ring
  · rw [hs, h]; ring

/-- Witness for C10 at a concrete engine input (J2000 noon, equator,
prime meridian, correction enabled). -/
theorem solar_window_symmetry_witness :
    (engineSolarData 2000 1 1 12 0 0 true).sunset -
        (engineSolarData 2000 1 1 12 0 0 true).sunrise =
      (engineSolarData 2000 1 1 12 0 0 true).dayLength ∧
    (engineSolarData 2000 1 1 12 0 0 true).sunrise +
        (engineSolarData 2000 1 1 12 0 0 true).sunset =
      2 * (engineSolarData 2000 1 1 12 0 0 true).solarNoon :=
  ⟨(solar_window_symmetry 2000 1 1 12 0 0 true).1,
   (solar_window_symmetry 2000 1 1 12 0 0 true).2.1⟩

/-- Modelled from the spec: the proleptic-Gregorian leap-year rule used by
the JavaScript Date object when the engine builds `new Date(year, 0, day)`
(the Date source itself is a platform builtin, not part of src/). -/
def isLeap (y : ℤ) : Bool :=
  decide ((y % 4 = 0 ∧ y % 100 ≠ 0) ∨ y % 400 = 0)

/-- Month lengths of a Gregorian year. -/
def monthLengths (y : ℤ) : List ℕ :=
  [31, if isLeap y then 29 else 28, 31, 30, 31, 30, 31, 31, 30, 31, 30, 31]

/-- Number of days of a Gregorian calendar year. -/
def gregorianYearLength (y : ℤ) : ℕ := if isLeap y then 366 else 365

/-- Walk a day-of-year index through a list of month lengths, returning
the (month, day-of-month) pair. -/
def monthWalk : ℕ → List ℕ → ℕ → ℕ × ℕ
  | m, [], d => (m, d)
  | m, len :: rest, d => if d ≤ len then (m, d) else monthWalk (m + 1) rest (d - len)

/-- Modelled from the spec: JavaScript `new Date(year, 0, d)` normalization
to a civil (year, month, day-of-month) for the day-of-year values
1 ≤ d ≤ 366 used by the engine (overflow past the end of the year rolls
into the next year, as the Date constructor does). -/
def civilFromYearDay (y : ℤ) (d : ℕ) : ℤ × ℕ × ℕ :=
  if gregorianYearLength y < d then
    let p := monthWalk 1 (monthLengths (y + 1)) (d - gregorianYearLength y)
    (y + 1, p.1, p.2)
  else
    let p := monthWalk 1 (monthLengths y) d
    (y, p.1, p.2)

/-- Model of `parseFloat(x.toFixed(2))` for the nonnegative day lengths:
rounding to two decimal places. -/
noncomputable def round2 (x : ℝ) : ℝ := (⌊x * 100 + 1 / 2⌋ : ℝ) / 100

/-- One entry of the engine `annualData` loop body: day index `d` (1-based)
with the day length at the official threshold for noon of that day,
rounded to two decimals. -/
noncomputable def annualEntry (lat : ℝ) (year : ℤ) (d : ℕ) : ℕ × ℝ :=
  let c := civilFromYearDay year d
  let jd := getJulianDate c.1 c.2.1 c.2.2 12
  (d, round2 (calculateDaylightDurationPrecise lat
    (calculateSolarPosition jd).declination officialTwilight))

/-- The engine `annualData` memo: the loop `for i in 0..365` pushing
`{ day: i + 1, length: ... }`. -/
noncomputable def annualData (lat : ℝ) (year : ℤ) : List (ℕ × ℝ) :=
  (List.range 366).map (fun i => annualEntry lat year (i + 1))

/-- C5: for every latitude and year the annual series has exactly 366
entries, whose day indices are exactly 1..366 in strictly ascending
order, and every entry length is the two-decimal rounding of the day
length obtained from the solar position at the Julian Date of that civil
day at hour 12 with the official twilight threshold. -/
theorem annualSeries_structure (lat : ℝ) (year : ℤ) :
    (annualData lat year).length = 366 ∧
    (annualData lat year).map Prod.fst =
      (List.range 366).map (fun i => i + 1) ∧
    ((annualData lat year).map Prod.fst).Pairwise (· < ·) ∧
    ∀ e ∈ annualData lat year,
      e.2 = round2 (calculateDaylightDurationPrecise lat
        (calculateSolarPosition (getJulianDate
          (civilFromYearDay year e.1).1
          (civilFromYearDay year e.1).2.1
          (civilFromYearDay year e.1).2.2 12)).declination
        officialTwilight) := by
  have hmap : (annualData lat year).map Prod.fst =
      (List.range 366).map (fun i => i + 1) := by
    unfold annualData
    rw [List.map_map]
    rfl
  refine ⟨?_, hmap, ?_, ?_⟩
  · unfold annualData
    rw [List.length_map, List.length_range]
  · rw [hmap]
    rw [List.pairwise_map]
    exact (List.pairwise_lt_range 366).imp (by omega)
  · intro e he
    unfold annualData at he
    rw [List.mem_map] at he
    obtain ⟨i, -, hie⟩ := he
    rw [← hie]
    rfl
